import Mathlib

/-!
# Columpio/z3: polysat constraints and justifications, datatype rewriter

A shallow embedding of

* `src/math/polysat/polysat.h`: the classes `constraint` and `justification`;
* `src/ast/rewriter/datatype_rewriter.cpp`: `contains_partial_accessor_app`,
  `contains_uninterp`, `datatype_rewriter::mk_app_core` and
  `datatype_rewriter::mk_eq_core`;

followed by the theorems about them.
-/

namespace polysat

/-! ## `unsigned_vector` (z3 `util/vector.h`) -/

/-- The vector of variables of a constraint, `unsigned_vector`, as the list of
its elements in index order. -/
abbrev unsigned_vector := List Nat

/-- Method `vector::push_back(elem)` of z3's `vector` template
(`util/vector.h`): `elem` becomes the new last element. -/
def unsigned_vector.push_back (v : unsigned_vector) (elem : Nat) : unsigned_vector :=
  v ++ [elem]

/-- Method `vector::append(other)`: `push_back` of every element of `other`,
in order. -/
def unsigned_vector.append (v other : unsigned_vector) : unsigned_vector :=
  other.foldl unsigned_vector.push_back v

/-- Method `vector::insert(elem)` of z3's `vector` template (`util/vector.h`,
whose text is not among the sources): its body is `push_back(elem)`. The
template has this method so that a vector can stand where a set is expected;
it does not look for `elem` among the elements already present. -/
def unsigned_vector.insert (v : unsigned_vector) (elem : Nat) : unsigned_vector :=
  v.push_back elem

/-! ## The polynomial engine, as far as `constraint` uses it -/

/-- What `constraint` uses of `dd::pdd` (declared in `math/dd/dd_pdd.h`):
`free_vars()`, the enumeration of the variables of a polynomial. The
comparison `q != p` of the constructor is the decidable equality of the
type. -/
class pdd_ops (pdd : Type) where
  /-- Method `pdd::free_vars()`. -/
  free_vars : pdd → unsigned_vector

/-- Kind of a constraint: `enum ckind_t { eq_t, ule_t, sle_t }`. -/
inductive ckind_t
  | eq_t
  | ule_t
  | sle_t
  deriving DecidableEq, Repr

/-- The data members of `class constraint`. `p_dependency` is the type of the
dependency that `p_dependency_ref` points to. -/
structure constraint (pdd : Type) (p_dependency : Type) where
  m_level : Nat
  m_kind : ckind_t
  m_poly : pdd
  m_other : pdd
  m_dep : p_dependency
  m_vars : unsigned_vector

namespace constraint

variable {pdd : Type} {p_dependency : Type}

/-- The private constructor
`constraint(unsigned lvl, pdd const& p, pdd const& q, p_dependency_ref& dep, ckind_t k)`:
the member initialisers, then `m_vars.append(p.free_vars())` and, if `q != p`,
`m_vars.insert(v)` for every `v` of `q.free_vars()` in order. -/
def ctor [DecidableEq pdd] [pdd_ops pdd]
    (lvl : Nat) (p q : pdd) (d : p_dependency) (k : ckind_t) : constraint pdd p_dependency :=
  let m_vars : unsigned_vector := []
  let m_vars := m_vars.append (pdd_ops.free_vars p)
  let m_vars :=
    if q ≠ p then (pdd_ops.free_vars q).foldl unsigned_vector.insert m_vars
    else m_vars
  { m_level := lvl, m_kind := k, m_poly := p, m_other := q, m_dep := d,
    m_vars := m_vars }

/-- Factory `constraint::eq(lvl, p, d)`: `alloc(constraint, lvl, p, p, d, ckind_t::eq_t)`. -/
def eq [DecidableEq pdd] [pdd_ops pdd] (lvl : Nat) (p : pdd) (d : p_dependency) :
    constraint pdd p_dependency :=
  ctor lvl p p d ckind_t.eq_t

/-- Factory `constraint::ule(lvl, p, q, d)`: `alloc(constraint, lvl, p, q, d, ckind_t::ule_t)`. -/
def ule [DecidableEq pdd] [pdd_ops pdd] (lvl : Nat) (p q : pdd) (d : p_dependency) :
    constraint pdd p_dependency :=
  ctor lvl p q d ckind_t.ule_t

/-- Accessor `ckind_t kind() const`. -/
def kind (c : constraint pdd p_dependency) : ckind_t := c.m_kind

/-- Accessor `pdd const& p() const`. -/
def p (c : constraint pdd p_dependency) : pdd := c.m_poly

/-- Accessor `pdd const& lhs() const`. -/
def lhs (c : constraint pdd p_dependency) : pdd := c.m_poly

/-- Accessor `pdd const& rhs() const`. -/
def rhs (c : constraint pdd p_dependency) : pdd := c.m_other

/-- Accessor `p_dependency* dep() const`. -/
def dep (c : constraint pdd p_dependency) : p_dependency := c.m_dep

/-- Accessor `unsigned_vector& vars()`. -/
def vars (c : constraint pdd p_dependency) : unsigned_vector := c.m_vars

/-- Accessor `unsigned level() const`. -/
def level (c : constraint pdd p_dependency) : Nat := c.m_level

end constraint

/-- The `const` read accessors of `constraint`, by name. -/
inductive read_accessor
  | kind
  | p
  | lhs
  | rhs
  | dep
  | level
  deriving DecidableEq, Repr

/-- What a read accessor returns. -/
inductive read_value (pdd : Type) (p_dependency : Type)
  | of_kind (k : ckind_t)
  | of_pdd (p : pdd)
  | of_dep (d : p_dependency)
  | of_level (lvl : Nat)

/-- A call `c.a()` of a read accessor in state-passing form: the value
returned and the object after the call. Each of these member functions is
declared `const` and its body is one `return` of a data member, so the
object after the call is the object before it. -/
def constraint.read {pdd p_dependency : Type} (a : read_accessor) (c : constraint pdd p_dependency) :
    read_value pdd p_dependency × constraint pdd p_dependency :=
  match a with
  | read_accessor.kind => (read_value.of_kind c.kind, c)
  | read_accessor.p => (read_value.of_pdd c.p, c)
  | read_accessor.lhs => (read_value.of_pdd c.lhs, c)
  | read_accessor.rhs => (read_value.of_pdd c.rhs, c)
  | read_accessor.dep => (read_value.of_dep c.dep, c)
  | read_accessor.level => (read_value.of_level c.level, c)

/-- A sequence of accessor calls on one constraint: the object after the
last call. -/
def constraint.read_all {pdd p_dependency : Type} (as : List read_accessor)
    (c : constraint pdd p_dependency) : constraint pdd p_dependency :=
  as.foldl (fun c a => (constraint.read a c).2) c

/-! ## Justifications -/

/-- Justification kind: `enum justification_k { unassigned, decision, propagation }`. -/
inductive justification_k
  | unassigned
  | decision
  | propagation
  deriving DecidableEq, Repr

/-- The data members of `class justification`. -/
structure justification where
  m_kind : justification_k
  m_level : Nat
  deriving DecidableEq, Repr

namespace justification

/-- Factory `justification::unassigned()`: `justification(justification_k::unassigned, 0)`. -/
def unassigned : justification := ⟨justification_k.unassigned, 0⟩

/-- Factory `justification::decision(lvl)`. -/
def decision (lvl : Nat) : justification := ⟨justification_k.decision, lvl⟩

/-- Factory `justification::propagation(lvl)`. -/
def propagation (lvl : Nat) : justification := ⟨justification_k.propagation, lvl⟩

/-- Method `is_decision()`: `m_kind == justification_k::decision`. -/
def is_decision (j : justification) : Bool := j.m_kind == justification_k.decision

/-- Method `is_unassigned()`: `m_kind == justification_k::unassigned`. -/
def is_unassigned (j : justification) : Bool := j.m_kind == justification_k.unassigned

/-- Method `is_propagation()`: `m_kind == justification_k::propagation`. -/
def is_propagation (j : justification) : Bool := j.m_kind == justification_k.propagation

/-- Method `kind()`. -/
def kind (j : justification) : justification_k := j.m_kind

/-- Method `level()`. -/
def level (j : justification) : Nat := j.m_level

end justification

end polysat

namespace z3

/-! ## Terms (`ast/ast.h`), as far as the datatype rewriter reads them -/

/-- A function declaration, `func_decl`: its name, `get_family_id()` and
`get_decl_kind()`. Declarations are hash-consed by the manager, so the
pointer comparisons of the source are equalities of these values. -/
structure func_decl where
  name : String
  family_id : Int
  decl_kind : Int
  deriving DecidableEq, Repr

/-- An expression, `expr`: a variable (`AST_VAR`), an application (`AST_APP`)
of a declaration to arguments, or a quantifier (`AST_QUANTIFIER`) with its
body, its patterns and its no-patterns. -/
inductive expr
  | var (idx : Nat)
  | app (decl : func_decl) (args : List expr)
  | quantifier (body : expr) (patterns : List expr) (no_patterns : List expr)
  deriving Repr

/-- Test `is_app(n)`. -/
def is_app : expr → Bool
  | expr.app _ _ => true
  | _ => false

/-- Test `is_app_of(n, fid, k)`: `n` is an application whose declaration has
family `fid` and kind `k`. -/
def is_app_of (n : expr) (fid : Int) (k : Int) : Bool :=
  match n with
  | expr.app d _ => d.family_id == fid && d.decl_kind == k
  | _ => false

mutual
/-- Modelled from the spec: `is_ground` is declared in `ast/ast.h`, which is
not among the sources. A term is ground when it is an application all of
whose arguments are ground: it has no variable and no quantifier in it. -/
def is_ground : expr → Bool
  | expr.var _ => false
  | expr.app _ args => is_ground_args args
  | expr.quantifier _ _ _ => false
/-- Every expression of the list is ground. -/
def is_ground_args : List expr → Bool
  | [] => true
  | e :: es => is_ground e && is_ground_args es
end

/-- Datatype operator kinds, `enum op_kind` of `ast/datatype_decl_plugin.h`. -/
abbrev OP_DT_CONSTRUCTOR : Int := 0

/-- Kind of the old-style recogniser declarations. -/
abbrev OP_DT_RECOGNISER : Int := 1

/-- Kind of the recognisers `is_C`. -/
abbrev OP_DT_IS : Int := 2

/-- Kind of the accessors. -/
abbrev OP_DT_ACCESSOR : Int := 3

/-- Kind of the field updates. -/
abbrev OP_DT_UPDATE_FIELD : Int := 4

/-- What the rewriter asks of `datatype_util` (`ast/datatype_decl_plugin.h`,
not among the sources), as the answers it gets: the family id of the datatype
theory and the tables that relate recognisers, accessors and constructors. -/
structure datatype_util where
  /-- Method `get_family_id()`. -/
  get_family_id : Int
  /-- Method `get_recognizer_constructor(f)`: the constructor a recogniser recognises. -/
  get_recognizer_constructor : func_decl → func_decl
  /-- Method `get_accessor_constructor(f)`: the constructor an accessor belongs to. -/
  get_accessor_constructor : func_decl → func_decl
  /-- Method `get_constructor_accessors(c)`: the accessors of a constructor, in field order. -/
  get_constructor_accessors : func_decl → List func_decl
  /-- Method `get_update_accessor(f)`: the accessor a field update writes. -/
  get_update_accessor : func_decl → func_decl
  /-- Method `mk_is(c, e)`: the term `is_c(e)`. -/
  mk_is : func_decl → expr → expr

/-- Method `datatype_util::is_constructor`: `is_app_of(e, fid, OP_DT_CONSTRUCTOR)`. -/
def datatype_util.is_constructor (u : datatype_util) (e : expr) : Bool :=
  is_app_of e u.get_family_id OP_DT_CONSTRUCTOR

/-- Method `datatype_util::is_accessor`: `is_app_of(e, fid, OP_DT_ACCESSOR)`. -/
def datatype_util.is_accessor (u : datatype_util) (e : expr) : Bool :=
  is_app_of e u.get_family_id OP_DT_ACCESSOR

/-- What the rewriter asks of `ast_manager` (`ast/ast.h`, not among the
sources): the terms it builds, the test `is_considered_uninterpreted`, and
the datatype declarations it holds, from which `datatype_util(m)` answers. -/
structure ast_manager where
  mk_true : expr
  mk_false : expr
  mk_eq : expr → expr → expr
  mk_and : List expr → expr
  mk_app : func_decl → List expr → expr
  is_considered_uninterpreted : func_decl → Bool
  datatypes : datatype_util

mutual
/-- Modelled from the spec: `for_each_expr(proc, n)` is declared in
`ast/for_each_expr.h`, which is not among the sources. It applies the visitor
to every subterm of `n`, to the children of a node (the arguments of an
application; the body, patterns and no-patterns of a quantifier) before the
node itself; an exception thrown by the visitor ends the traversal at once
and leaves `for_each_expr` (exception-like early termination from a visitor).
The original keeps marks so that a subterm shared by several parents is
visited once; the visitors here keep no state, so a second visit of a subterm
would throw exactly if the first did, and the marks are left out. -/
def for_each_expr {ε : Type} (proc : expr → Except ε Unit) : expr → Except ε Unit
  | expr.var i => proc (expr.var i)
  | expr.app d args => do
      for_each_expr_children proc args
      proc (expr.app d args)
  | expr.quantifier b ps nps => do
      for_each_expr proc b
      for_each_expr_children proc ps
      for_each_expr_children proc nps
      proc (expr.quantifier b ps nps)
/-- The traversal of the children of a node, in order. -/
def for_each_expr_children {ε : Type} (proc : expr → Except ε Unit) :
    List expr → Except ε Unit
  | [] => pure ()
  | e :: es => do
      for_each_expr proc e
      for_each_expr_children proc es
end

/-! ## `datatype_rewriter.cpp`: the two visitors -/

namespace contains_partial_accessor_proc_ns

/-- The exception `struct found {}`. -/
structure found where
  deriving DecidableEq, Repr

/-- The visitor `struct contains_partial_accessor`: it holds the
`datatype_util m_dt` built from the manager. -/
structure contains_partial_accessor where
  m : ast_manager
  m_dt : datatype_util

/-- The constructor `contains_partial_accessor(ast_manager &a_m) : m(a_m), m_dt(m)`. -/
def contains_partial_accessor.ctor (a_m : ast_manager) : contains_partial_accessor :=
  { m := a_m, m_dt := a_m.datatypes }

/-- The call operators of the visitor. `operator()(expr *n)`, chosen
for variables and quantifiers, does nothing. `operator()(app *n)` throws
`found` when `n` is an accessor application, its argument 0 is an application, and
the constructor of the accessor is not the declaration of that argument.
(`args.head?` is `n->get_arg(0)`; an accessor application has one argument,
and for an application without arguments nothing is thrown.) -/
def contains_partial_accessor.call (t : contains_partial_accessor) (n : expr) :
    Except found Unit :=
  match n with
  | expr.app decl args =>
    if t.m_dt.is_accessor n then
      match args.head? with
      | some (expr.app arg_decl _) =>
        if t.m_dt.get_accessor_constructor decl != arg_decl then throw {} else pure ()
      | _ => pure ()
    else pure ()
  | _ => pure ()

end contains_partial_accessor_proc_ns

/-- The function `contains_partial_accessor_app(c, m)`: `try { for_each_expr(t, c);
return false; } catch (found) { return true; }`. -/
def contains_partial_accessor_app (c : expr) (m : ast_manager) : Bool :=
  let t := contains_partial_accessor_proc_ns.contains_partial_accessor.ctor m
  match for_each_expr t.call c with
  | Except.ok _ => false
  | Except.error _ => true

namespace contains_uninterp_proc_ns

/-- The exception `struct found {}`. -/
structure found where
  deriving DecidableEq, Repr

/-- The visitor `struct contains_uninterp_proc`. -/
structure contains_uninterp_proc where
  m : ast_manager
  m_dt : datatype_util

/-- The constructor `contains_uninterp_proc(ast_manager &a_m) : m(a_m), m_dt(m)`. -/
def contains_uninterp_proc.ctor (a_m : ast_manager) : contains_uninterp_proc :=
  { m := a_m, m_dt := a_m.datatypes }

/-- The call operators of the visitor: nothing for variables and
quantifiers; for an application, `throw found()` when the manager considers
its declaration uninterpreted. -/
def contains_uninterp_proc.call (t : contains_uninterp_proc) (n : expr) :
    Except found Unit :=
  match n with
  | expr.app decl _ =>
    if t.m.is_considered_uninterpreted decl then throw {} else pure ()
  | _ => pure ()

end contains_uninterp_proc_ns

/-- The function `contains_uninterp(c, m)`: `try { for_each_expr(t, c); return false; }
catch (found) { return true; }`. -/
def contains_uninterp (c : expr) (m : ast_manager) : Bool :=
  let t := contains_uninterp_proc_ns.contains_uninterp_proc.ctor m
  match for_each_expr t.call c with
  | Except.ok _ => false
  | Except.error _ => true


/-! ## `datatype_rewriter.cpp`: the rewriter -/

/-- The status a rewriting step returns, `enum br_status` of
`ast/rewriter/rewriter_types.h`. -/
inductive br_status
  | BR_REWRITE1
  | BR_REWRITE2
  | BR_REWRITE3
  | BR_REWRITE_FULL
  | BR_DONE
  | BR_FAILED
  deriving DecidableEq, Repr

/-- How a call of `mk_app_core` or `mk_eq_core` ends: it returns a status
and leaves a value in the reference parameter `result` (`none` is the null
reference); or an `SASSERT` fails (the assertions are read as checked, as in
a debug build); or control reaches `UNREACHABLE()`. -/
inductive outcome
  | ret (st : br_status) (result : Option expr)
  | assertion_violation
  | unreachable

/-- The class `datatype_rewriter`: its data member is `datatype_util m_util`,
built from the manager by the constructor `datatype_rewriter(ast_manager & m) :
m_util(m)`; the record keeps the manager. -/
structure datatype_rewriter where
  m : ast_manager

/-- The data member `m_util`, the `datatype_util` of the manager. -/
def datatype_rewriter.m_util (rw : datatype_rewriter) : datatype_util :=
  rw.m.datatypes

/-- Method `get_fid()`: `m_util.get_family_id()`. -/
def datatype_rewriter.get_fid (rw : datatype_rewriter) : Int :=
  rw.m_util.get_family_id

/-- The end of `case OP_DT_IS`, lines 93-97: compare the declaration of
`to_app(args[0])` with the constructor of the recogniser. `to_app` asserts
`is_app`. -/
def datatype_rewriter.mk_app_core_is_compare (rw : datatype_rewriter)
    (f : func_decl) (arg0 : expr) : outcome :=
  match arg0 with
  | expr.app decl _ =>
    if decl = rw.m_util.get_recognizer_constructor f then
      outcome.ret br_status.BR_DONE (some rw.m.mk_true)
    else
      outcome.ret br_status.BR_DONE (some rw.m.mk_false)
  | _ => outcome.assertion_violation

/-- The loop of `case OP_DT_ACCESSOR`, lines 113-120, from index `i` on:
`acc` holds `acc[i], acc[i+1], ...`; at the first `i` with `f == acc[i]`
the result is `a->get_arg(i)`; after the loop comes `UNREACHABLE()`. -/
def datatype_rewriter.mk_app_core_accessor_loop (f : func_decl) (a_args : List expr) :
    List func_decl → Nat → outcome
  | [], _ => outcome.unreachable
  | g :: acc, i =>
    if f = g then
      match a_args.get? i with
      | some arg => outcome.ret br_status.BR_DONE (some arg)
      | none => outcome.assertion_violation
    else
      datatype_rewriter.mk_app_core_accessor_loop f a_args acc (i + 1)

/-- The loop of `case OP_DT_UPDATE_FIELD`, lines 138-146: the new arguments,
position by position `args[1]` where the accessor is the updated one and
`a->get_arg(i)` elsewhere. -/
def datatype_rewriter.mk_app_core_update_loop (acc : func_decl) (new_value : expr) :
    List func_decl → List expr → List expr
  | g :: accs, x :: a_args =>
    (if acc = g then new_value else x) ::
      datatype_rewriter.mk_app_core_update_loop acc new_value accs a_args
  | _, _ => []

/-- Method `datatype_rewriter::mk_app_core(f, num_args, args, result)`. `args`
is the array `args[0 .. num_args-1]`; `result` is the value of the reference
parameter before the call. -/
def datatype_rewriter.mk_app_core (rw : datatype_rewriter) (f : func_decl)
    (args : List expr) (result : Option expr) : outcome :=
  if f.family_id ≠ rw.get_fid then outcome.assertion_violation
  else if f.decl_kind = OP_DT_CONSTRUCTOR then
    outcome.ret br_status.BR_FAILED result
  else if f.decl_kind = OP_DT_RECOGNISER then
    match args with
    | [arg0] =>
      outcome.ret br_status.BR_REWRITE1
        (some (rw.m_util.mk_is (rw.m_util.get_recognizer_constructor f) arg0))
    | _ => outcome.assertion_violation
  else if f.decl_kind = OP_DT_IS then
    match args with
    | [arg0] =>
      if !is_app arg0 || !rw.m_util.is_constructor arg0 then
        if !is_app arg0 || contains_uninterp arg0 rw.m || !is_ground arg0
            || contains_partial_accessor_app arg0 rw.m then
          outcome.ret br_status.BR_FAILED result
        else
          -- `result = m().mk_false();`, overwritten by the comparison below
          rw.mk_app_core_is_compare f arg0
      else
        rw.mk_app_core_is_compare f arg0
    | _ => outcome.assertion_violation
  else if f.decl_kind = OP_DT_ACCESSOR then
    match args with
    | [arg0] =>
      if !is_app arg0 || !rw.m_util.is_constructor arg0 then
        outcome.ret br_status.BR_FAILED result
      else
        match arg0 with
        | expr.app c_decl a_args =>
          if c_decl ≠ rw.m_util.get_accessor_constructor f then
            outcome.ret br_status.BR_FAILED result
          else
            let acc := rw.m_util.get_constructor_accessors c_decl
            if acc.length ≠ a_args.length then outcome.assertion_violation
            else datatype_rewriter.mk_app_core_accessor_loop f a_args acc 0
        | _ => outcome.assertion_violation
    | _ => outcome.assertion_violation
  else if f.decl_kind = OP_DT_UPDATE_FIELD then
    match args with
    | [arg0, arg1] =>
      if !is_app arg0 || !rw.m_util.is_constructor arg0 then
        outcome.ret br_status.BR_FAILED result
      else
        match arg0 with
        | expr.app c_decl a_args =>
          let acc := rw.m_util.get_update_accessor f
          if c_decl ≠ rw.m_util.get_accessor_constructor acc then
            outcome.ret br_status.BR_DONE (some arg0)
          else
            let accs := rw.m_util.get_constructor_accessors c_decl
            if accs.length ≠ a_args.length then outcome.assertion_violation
            else
              let new_args :=
                datatype_rewriter.mk_app_core_update_loop acc arg1 accs a_args
              outcome.ret br_status.BR_DONE (some (rw.m.mk_app c_decl new_args))
        | _ => outcome.assertion_violation
    | _ => outcome.assertion_violation
  else outcome.unreachable

/-- The loop of `mk_eq_core`, lines 193-195: the equalities
`mk_eq(lhs->get_arg(i), rhs->get_arg(i))`, for `i` from 0, in order. -/
def datatype_rewriter.mk_eq_core_loop (rw : datatype_rewriter) :
    List expr → List expr → List expr
  | a :: l_args, b :: r_args =>
    rw.m.mk_eq a b :: datatype_rewriter.mk_eq_core_loop rw l_args r_args
  | _, _ => []

/-- Method `datatype_rewriter::mk_eq_core(lhs, rhs, result)`. -/
def datatype_rewriter.mk_eq_core (rw : datatype_rewriter) (lhs rhs : expr)
    (result : Option expr) : outcome :=
  if !is_app lhs || !is_app rhs || !rw.m_util.is_constructor lhs
      || !rw.m_util.is_constructor rhs then
    outcome.ret br_status.BR_FAILED result
  else
    match lhs, rhs with
    | expr.app l_decl l_args, expr.app r_decl r_args =>
      if l_decl ≠ r_decl then
        outcome.ret br_status.BR_DONE (some rw.m.mk_false)
      else if l_args.length ≠ r_args.length then outcome.assertion_violation
      else
        let eqs := rw.mk_eq_core_loop l_args r_args
        outcome.ret br_status.BR_REWRITE2 (some (rw.m.mk_and eqs))
    | _, _ => outcome.assertion_violation

end z3

/-! ## A concrete polynomial type for examples -/

namespace polysat

/-- Modelled from the spec: the polynomials of the polynomial engine
(`dd::pdd`, not among the sources): "a polynomial is either a constant `k` or
a symbolic sum `Σ c_i · m_i` where each `m_i` is a monomial in the variables".
A polynomial is the list of its terms `(c_i, m_i)`, each a coefficient and
the list of the variables of its monomial; equal polynomials are equal lists
(canonical form). -/
structure spec_pdd where
  terms : List (Nat × List Nat)
  deriving DecidableEq, Repr

/-- Modelled from the spec: `free_vars(p)`, the "stable ordered enumeration
of variables of `p`": the variables of the monomials in order of first
occurrence, each listed once. -/
def spec_pdd.free_vars (p : spec_pdd) : unsigned_vector :=
  (p.terms.flatMap (fun t => t.2)).eraseDups

instance : pdd_ops spec_pdd := ⟨spec_pdd.free_vars⟩

/-- The polynomial `x₀`. -/
def spec_pdd.x : spec_pdd := ⟨[(1, [0])]⟩

/-- The polynomial `x₀ + 1`. -/
def spec_pdd.x_plus_1 : spec_pdd := ⟨[(1, [0]), (1, [])]⟩

/-- The polynomial `x₀ · x₁ + 3 · x₂`. -/
def spec_pdd.xy_plus_3z : spec_pdd := ⟨[(1, [0, 1]), (3, [2])]⟩

end polysat

namespace z3

/-! ## Subterms, and the found/not-found form of the partial-accessor test -/

mutual
/-- The subterms of an expression: the expression itself and the subterms
of its children (the arguments of an application; the body, the patterns and
the no-patterns of a quantifier). -/
def subterms : expr → List expr
  | expr.var i => [expr.var i]
  | expr.app d args => expr.app d args :: subterms_children args
  | expr.quantifier b ps nps =>
    expr.quantifier b ps nps ::
      (subterms b ++ (subterms_children ps ++ subterms_children nps))
/-- The subterms of the expressions of a list. -/
def subterms_children : List expr → List expr
  | [] => []
  | e :: es => subterms e ++ subterms_children es
end

/-- Written from the specification, not from the code: `s` is "an accessor
application whose first argument is an application with a declaration
different from the accessor's constructor". -/
def spec_partial_accessor_app (m : ast_manager) (s : expr) : Bool :=
  match s with
  | expr.app acc (expr.app arg_decl _ :: _) =>
    (acc.family_id == m.datatypes.get_family_id && acc.decl_kind == OP_DT_ACCESSOR) &&
      (arg_decl != m.datatypes.get_accessor_constructor acc)
  | _ => false

/-- Written from the specification, not from the code: the explicit
found/not-found traversal, which answers found (`true`) when some subterm of
`c` is such an accessor application and not-found (`false`) otherwise. -/
def spec_contains_partial_accessor_app (c : expr) (m : ast_manager) : Bool :=
  (subterms c).any (spec_partial_accessor_app m)

/-- Written from the specification, not from the code: `s` is an
application of an uninterpreted symbol, a declaration that the manager
considers uninterpreted. -/
def spec_uninterp_app (m : ast_manager) (s : expr) : Bool :=
  match s with
  | expr.app d _ => m.is_considered_uninterpreted d
  | _ => false

/-- Written from the specification, not from the code: `t` "contains an
uninterpreted symbol" when some subterm of `t`, at the root or below it, is
an application of an uninterpreted symbol. -/
def spec_contains_uninterp (t : expr) (m : ast_manager) : Prop :=
  ∃ s, s ∈ subterms t ∧ spec_uninterp_app m s = true

/-- Written from the specification, not from the code: `t` "is not ground"
when some subterm of `t` is not an application, that is, a variable or a
quantifier. -/
def spec_not_ground (t : expr) : Prop :=
  ∃ s, s ∈ subterms t ∧ is_app s = false

/-- Written from the specification, not from the code: `t` "contains a
partial accessor application" when some subterm of `t` is an accessor
application whose first argument is an application with a declaration
different from the accessor's constructor. -/
def spec_contains_partial_accessor (t : expr) (m : ast_manager) : Prop :=
  ∃ s, s ∈ subterms t ∧ spec_partial_accessor_app m s = true

/-- A traversal or a visitor call ended by an exception. -/
def threw {ε : Type} (r : Except ε Unit) : Bool :=
  match r with
  | Except.ok _ => false
  | Except.error _ => true

/-! ## The datatype semantics of ground terms -/

/-- Written from the specification, not from the code: the field that an
accessor `acc` selects from a value built by the accessor's own constructor
`c`, whose accessors are `accs` and whose fields are `fields`, position by
position. -/
def spec_select_field (acc : func_decl) : List func_decl → List expr → Option expr
  | g :: accs, v :: fields =>
    if acc = g then some v else spec_select_field acc accs fields
  | _, _ => none

mutual
/-- Written from the specification, not from the code: the value of a ground
term "under the datatype semantics (accessor applied to its own constructor
selects the field)". A value is a term built from constructors only. A
constructor application has the value built by that constructor from the
values of its arguments; an accessor application, whose argument has a value
built by the accessor's own constructor, has the selected field as value; no
other term is given a value. -/
def spec_value (u : datatype_util) : expr → Option expr
  | expr.var _ => none
  | expr.quantifier _ _ _ => none
  | expr.app d args =>
    match spec_value_args u args with
    | none => none
    | some vs =>
      if d.family_id = u.get_family_id ∧ d.decl_kind = OP_DT_CONSTRUCTOR then
        some (expr.app d vs)
      else if d.family_id = u.get_family_id ∧ d.decl_kind = OP_DT_ACCESSOR then
        match vs with
        | [expr.app c fields] =>
          if c = u.get_accessor_constructor d then
            spec_select_field d (u.get_constructor_accessors c) fields
          else none
        | _ => none
      else none
/-- The values of the terms of a list, when each of them has one. -/
def spec_value_args (u : datatype_util) : List expr → Option (List expr)
  | [] => some []
  | e :: es =>
    match spec_value u e, spec_value_args u es with
    | some v, some vs => some (v :: vs)
    | _, _ => none
end

/-- Written from the specification, not from the code: the value `v` "is
built by constructor `C`". -/
def spec_built_by (C : func_decl) (v : expr) : Bool :=
  match v with
  | expr.app d _ => d == C
  | _ => false

/-! ## An example: lists with `nil` and `insert`, naturals with `zero` and `succ` -/

namespace example_dt

/-- The family id of the datatype theory in the example. -/
def fid : Int := 7

/-- Constructor `nil`. -/
def nil_decl : func_decl := ⟨"nil", fid, OP_DT_CONSTRUCTOR⟩

/-- Constructor `insert`, with the fields `head` and `tail`. -/
def insert_decl : func_decl := ⟨"insert", fid, OP_DT_CONSTRUCTOR⟩

/-- Accessor `head` of `insert`. -/
def head_decl : func_decl := ⟨"head", fid, OP_DT_ACCESSOR⟩

/-- Accessor `tail` of `insert`. -/
def tail_decl : func_decl := ⟨"tail", fid, OP_DT_ACCESSOR⟩

/-- Recogniser `is_nil`. -/
def is_nil_decl : func_decl := ⟨"is_nil", fid, OP_DT_IS⟩

/-- Recogniser `is_insert`. -/
def is_insert_decl : func_decl := ⟨"is_insert", fid, OP_DT_IS⟩

/-- Constructor `zero`. -/
def zero_decl : func_decl := ⟨"zero", fid, OP_DT_CONSTRUCTOR⟩

/-- Constructor `succ`, with the field `pred`. -/
def succ_decl : func_decl := ⟨"succ", fid, OP_DT_CONSTRUCTOR⟩

/-- Accessor `pred` of `succ`. -/
def pred_decl : func_decl := ⟨"pred", fid, OP_DT_ACCESSOR⟩

/-- Recogniser `is_zero`. -/
def is_zero_decl : func_decl := ⟨"is_zero", fid, OP_DT_IS⟩

/-- Recogniser `is_succ`. -/
def is_succ_decl : func_decl := ⟨"is_succ", fid, OP_DT_IS⟩

/-- The tables of the two datatypes. -/
def util : datatype_util where
  get_family_id := fid
  get_recognizer_constructor := fun f =>
    if f = is_nil_decl then nil_decl
    else if f = is_insert_decl then insert_decl
    else if f = is_zero_decl then zero_decl
    else succ_decl
  get_accessor_constructor := fun f =>
    if f = pred_decl then succ_decl else insert_decl
  get_constructor_accessors := fun c =>
    if c = insert_decl then [head_decl, tail_decl]
    else if c = succ_decl then [pred_decl]
    else []
  get_update_accessor := fun f => f
  mk_is := fun c e =>
    expr.app
      (if c = nil_decl then is_nil_decl
       else if c = insert_decl then is_insert_decl
       else if c = zero_decl then is_zero_decl
       else is_succ_decl) [e]

/-- A manager: the Boolean terms are applications of declarations of the
basic family (id 0), and the declarations without a family (id -1) are the
uninterpreted ones. -/
def m : ast_manager where
  mk_true := expr.app ⟨"true", 0, 0⟩ []
  mk_false := expr.app ⟨"false", 0, 1⟩ []
  mk_eq := fun a b => expr.app ⟨"=", 0, 2⟩ [a, b]
  mk_and := fun es => expr.app ⟨"and", 0, 5⟩ es
  mk_app := fun d es => expr.app d es
  is_considered_uninterpreted := fun d => d.family_id == -1
  datatypes := util

/-- The rewriter of the manager. -/
def rw : datatype_rewriter := ⟨m⟩

/-- The term `nil`. -/
def nil : expr := expr.app nil_decl []

/-- The term `insert(h, t)`. -/
def insert (h t : expr) : expr := expr.app insert_decl [h, t]

/-- The term `head(e)`. -/
def head (e : expr) : expr := expr.app head_decl [e]

/-- The term `tail(e)`. -/
def tail (e : expr) : expr := expr.app tail_decl [e]

/-- The term `zero`. -/
def zero : expr := expr.app zero_decl []

/-- The term `succ(e)`. -/
def succ (e : expr) : expr := expr.app succ_decl [e]

/-- The term `pred(e)`. -/
def pred (e : expr) : expr := expr.app pred_decl [e]

/-- An uninterpreted constant `x`. -/
def x : expr := expr.app ⟨"x", -1, -1⟩ []

/-- An uninterpreted constant `y`. -/
def y : expr := expr.app ⟨"y", -1, -1⟩ []

end example_dt

end z3

/-! # Theorems -/

namespace polysat

section constraint_theorems

variable {pdd : Type} {p_dependency : Type} [DecidableEq pdd] [pdd_ops pdd]

theorem unsigned_vector.foldl_push_back (v other : unsigned_vector) :
    other.foldl unsigned_vector.push_back v = v ++ other := by
  induction other generalizing v with
  | nil => simp
  | cons a as ih => simp [List.foldl, ih, unsigned_vector.push_back]

theorem unsigned_vector.append_eq (v other : unsigned_vector) :
    unsigned_vector.append v other = v ++ other :=
  unsigned_vector.foldl_push_back v other

theorem unsigned_vector.foldl_insert (v other : unsigned_vector) :
    other.foldl unsigned_vector.insert v = v ++ other := by
  have h : unsigned_vector.insert = unsigned_vector.push_back := by
    funext a b; rfl
  rw [h]
  exact unsigned_vector.foldl_push_back v other

/-- The variables recorded by the constructor: the free variables of `p`,
followed by those of `q` when `q != p`. -/
theorem constraint.ctor_vars (lvl : Nat) (p q : pdd) (d : p_dependency) (k : ckind_t) :
    (constraint.ctor lvl p q d k).vars =
      if q ≠ p then pdd_ops.free_vars p ++ pdd_ops.free_vars q
      else pdd_ops.free_vars p := by
  unfold constraint.ctor constraint.vars
  by_cases h : q = p
  · simp [h, unsigned_vector.append_eq]
  · simp [h, unsigned_vector.append_eq, unsigned_vector.foldl_insert]

/-- C1: the constraint built by `constraint::eq(lvl, p, d)` has kind `eq_t`,
and its second polynomial is its first: `rhs() = lhs() = p() = p`. -/
theorem constraint.eq_kind_and_sides (lvl : Nat) (p : pdd) (d : p_dependency) :
    (constraint.eq lvl p d).kind = ckind_t.eq_t ∧
    (constraint.eq lvl p d).rhs = (constraint.eq lvl p d).lhs ∧
    (constraint.eq lvl p d).lhs = (constraint.eq lvl p d).p ∧
    (constraint.eq lvl p d).p = p :=
  ⟨rfl, rfl, rfl, rfl⟩

/-- C2: for a constraint `c` built by `constraint::eq` from `p` (its two
sides are both `p`) or by `constraint::ule` from `p` and `q` (equal or not),
a variable occurs in `c.vars()` exactly when it is a free variable of the
left side or a free variable of the right side. -/
theorem constraint.mem_vars_iff (lvl : Nat) (p q : pdd) (d : p_dependency) (v : Nat) :
    (v ∈ (constraint.eq lvl p d).vars ↔
      v ∈ pdd_ops.free_vars (constraint.eq lvl p d).lhs ∨
      v ∈ pdd_ops.free_vars (constraint.eq lvl p d).rhs) ∧
    (v ∈ (constraint.ule lvl p q d).vars ↔
      v ∈ pdd_ops.free_vars p ∨ v ∈ pdd_ops.free_vars q) ∧
    (v ∈ (constraint.ule lvl p p d).vars ↔ v ∈ pdd_ops.free_vars p) := by
  refine ⟨?_, ?_, ?_⟩
  · show v ∈ (constraint.ctor lvl p p d ckind_t.eq_t).vars ↔
      v ∈ pdd_ops.free_vars p ∨ v ∈ pdd_ops.free_vars p
    rw [constraint.ctor_vars]
    simp
  · unfold constraint.ule
    rw [constraint.ctor_vars]
    by_cases h : q = p
    · simp [h]
    · simp [h]
  · unfold constraint.ule
    rw [constraint.ctor_vars]
    simp

/-- C4: the constraint built by `constraint::ule(lvl, p, q, d)` reports its
creation-time attributes, `kind() = ule_t`, `lhs() = p() = p`, `rhs() = q`,
`level() = lvl`, `dep() = d`; and a call of one of the read accessors `kind`,
`p`, `lhs`, `rhs`, `level`, `dep`, or any sequence of such calls, leaves the
constraint as it was, so the attributes read afterwards are the same. -/
theorem constraint.ule_attributes (lvl : Nat) (p q : pdd) (d : p_dependency) :
    (constraint.ule lvl p q d).kind = ckind_t.ule_t ∧
    (constraint.ule lvl p q d).lhs = p ∧
    (constraint.ule lvl p q d).p = p ∧
    (constraint.ule lvl p q d).rhs = q ∧
    (constraint.ule lvl p q d).level = lvl ∧
    (constraint.ule lvl p q d).dep = d ∧
    (∀ a : read_accessor,
      ((constraint.ule lvl p q d).read a).2 = constraint.ule lvl p q d) ∧
    (∀ as : List read_accessor,
      (constraint.ule lvl p q d).read_all as = constraint.ule lvl p q d) := by
  refine ⟨rfl, rfl, rfl, rfl, rfl, rfl, ?_, ?_⟩
  · intro a
    cases a <;> rfl
  · intro as
    unfold constraint.read_all
    induction as with
    | nil => rfl
    | cons a as ih =>
      rw [List.foldl_cons]
      have h : ((constraint.ule lvl p q d).read a).2 = constraint.ule lvl p q d := by
        cases a <;> rfl
      rw [h]
      exact ih

end constraint_theorems

/-- C3, at `ule(x, x+1)`: the free variables of `x` and of `x + 1` are each
listed once, the two polynomials differ, and `vars()` of the constraint is
`[0, 0]`: the variable `x₀` occurs in it twice. -/
theorem constraint.ule_vars_duplicate :
    (pdd_ops.free_vars spec_pdd.x).Nodup ∧
    (pdd_ops.free_vars spec_pdd.x_plus_1).Nodup ∧
    spec_pdd.x ≠ spec_pdd.x_plus_1 ∧
    (constraint.ule 0 spec_pdd.x spec_pdd.x_plus_1 ()).vars = [0, 0] ∧
    ¬ (constraint.ule 0 spec_pdd.x spec_pdd.x_plus_1 ()).vars.Nodup := by
  decide

/-- C5: `decision(L)` is a decision of level `L`, `propagation(L)` is a
propagation of level `L`, `unassigned()` is unassigned, and of every
justification exactly one of `is_unassigned()`, `is_decision()`,
`is_propagation()` is true. -/
theorem justification.kinds (L : Nat) (j : justification) :
    ((justification.decision L).is_decision = true ∧
      (justification.decision L).level = L) ∧
    ((justification.propagation L).is_propagation = true ∧
      (justification.propagation L).level = L) ∧
    justification.unassigned.is_unassigned = true ∧
    ((j.is_unassigned = true ∧ j.is_decision = false ∧ j.is_propagation = false) ∨
     (j.is_unassigned = false ∧ j.is_decision = true ∧ j.is_propagation = false) ∨
     (j.is_unassigned = false ∧ j.is_decision = false ∧ j.is_propagation = true)) := by
  refine ⟨⟨rfl, rfl⟩, ⟨rfl, rfl⟩, rfl, ?_⟩
  obtain ⟨k, lvl⟩ := j
  cases k <;> simp [justification.is_unassigned, justification.is_decision,
    justification.is_propagation]

end polysat

namespace z3

/-! ## The traversal -/

theorem threw_bind {ε : Type} (a b : Except ε Unit) :
    threw (a >>= fun _ => b) = (threw a || threw b) := by
  cases a <;> rfl

mutual
theorem threw_for_each_expr {ε : Type} (proc : expr → Except ε Unit) :
    ∀ e : expr, threw (for_each_expr proc e) = (subterms e).any (fun s => threw (proc s))
  | expr.var i => by simp [for_each_expr, subterms]
  | expr.app d args => by
    simp only [for_each_expr, subterms, threw_bind, List.any_cons,
      threw_for_each_expr_children proc args]
    exact Bool.or_comm _ _
  | expr.quantifier b ps nps => by
    simp only [for_each_expr, subterms, threw_bind, List.any_cons, List.any_append,
      threw_for_each_expr proc b, threw_for_each_expr_children proc ps,
      threw_for_each_expr_children proc nps]
    cases threw (proc (expr.quantifier b ps nps)) <;> simp
theorem threw_for_each_expr_children {ε : Type} (proc : expr → Except ε Unit) :
    ∀ es : List expr,
      threw (for_each_expr_children proc es) =
        (subterms_children es).any (fun s => threw (proc s))
  | [] => by simp [for_each_expr_children, subterms_children, threw, pure, Except.pure]
  | e :: es => by
    simp only [for_each_expr_children, subterms_children, threw_bind, List.any_append,
      threw_for_each_expr proc e, threw_for_each_expr_children proc es]
end


/-! ## The visitors -/

/-- The visitor of `contains_partial_accessor_app` throws at `s` exactly when
`s` is a partial accessor application in the words of the specification. -/
theorem threw_contains_partial_accessor_call (m : ast_manager) (s : expr) :
    threw ((contains_partial_accessor_proc_ns.contains_partial_accessor.ctor m).call s) =
      spec_partial_accessor_app m s := by
  unfold contains_partial_accessor_proc_ns.contains_partial_accessor.call
    contains_partial_accessor_proc_ns.contains_partial_accessor.ctor
    spec_partial_accessor_app datatype_util.is_accessor is_app_of
  cases s with
  | var i => rfl
  | quantifier b ps nps => rfl
  | app acc args =>
    cases args with
    | nil =>
      by_cases h1 : (acc.family_id == m.datatypes.get_family_id &&
          acc.decl_kind == OP_DT_ACCESSOR) = true
      · simp [h1, threw, pure, Except.pure]
      · simp [h1, threw, pure, Except.pure]
    | cons a rest =>
      cases a with
      | var i =>
        by_cases h1 : (acc.family_id == m.datatypes.get_family_id &&
            acc.decl_kind == OP_DT_ACCESSOR) = true
        · simp [h1, threw, pure, Except.pure]
        · simp [h1, threw, pure, Except.pure]
      | quantifier b ps nps =>
        by_cases h1 : (acc.family_id == m.datatypes.get_family_id &&
            acc.decl_kind == OP_DT_ACCESSOR) = true
        · simp [h1, threw, pure, Except.pure]
        · simp [h1, threw, pure, Except.pure]
      | app arg_decl arg_args =>
        by_cases h1 : (acc.family_id == m.datatypes.get_family_id &&
            acc.decl_kind == OP_DT_ACCESSOR) = true
        · by_cases h2 : m.datatypes.get_accessor_constructor acc = arg_decl
          · simp [h1, h2, threw, pure, Except.pure]
          · have h3 : ¬ arg_decl = m.datatypes.get_accessor_constructor acc :=
              fun h => h2 h.symm
            simp [h1, h2, h3, threw, throw, throwThe, MonadExceptOf.throw]
        · simp [h1, threw, pure, Except.pure]

theorem contains_partial_accessor_app_eq_threw (c : expr) (m : ast_manager) :
    contains_partial_accessor_app c m =
      threw (for_each_expr
        (contains_partial_accessor_proc_ns.contains_partial_accessor.ctor m).call c) := by
  unfold contains_partial_accessor_app threw
  dsimp only
  cases for_each_expr
    (contains_partial_accessor_proc_ns.contains_partial_accessor.ctor m).call c <;> rfl

theorem contains_partial_accessor_app_eq_any (c : expr) (m : ast_manager) :
    contains_partial_accessor_app c m = (subterms c).any (spec_partial_accessor_app m) := by
  rw [contains_partial_accessor_app_eq_threw, threw_for_each_expr]
  congr 1
  funext s
  exact threw_contains_partial_accessor_call m s

/-- C10: `contains_partial_accessor_app(c, m)` equals the explicit
found/not-found traversal; it returns `true` exactly when some subterm of `c`
is an accessor application whose first argument is an application with a
declaration different from the accessor's constructor, and `false`
otherwise. Its value is a Boolean for every `c`: every `found` thrown by the
visitor is caught. -/
theorem contains_partial_accessor_app_refines (c : expr) (m : ast_manager) :
    contains_partial_accessor_app c m = spec_contains_partial_accessor_app c m ∧
    (contains_partial_accessor_app c m = true ↔
      ∃ s, s ∈ subterms c ∧ spec_partial_accessor_app m s = true) ∧
    (contains_partial_accessor_app c m = false ↔
      ¬ ∃ s, s ∈ subterms c ∧ spec_partial_accessor_app m s = true) := by
  have h := contains_partial_accessor_app_eq_any c m
  refine ⟨h, ?_, ?_⟩
  · rw [h, List.any_eq_true]
  · rw [← Bool.not_eq_true, h, List.any_eq_true]


/-! ## `mk_app_core` on recognisers -/

theorem datatype_util.is_constructor_app (u : datatype_util) (d : func_decl)
    (args : List expr) :
    u.is_constructor (expr.app d args) = true ↔
      d.family_id = u.get_family_id ∧ d.decl_kind = OP_DT_CONSTRUCTOR := by
  simp [datatype_util.is_constructor, is_app_of]

/-- `mk_app_core` at a recogniser and one argument, with the switch resolved. -/
theorem datatype_rewriter.mk_app_core_is (rw : datatype_rewriter) (f : func_decl)
    (t : expr) (result : Option expr)
    (hf : f.family_id = rw.get_fid) (hk : f.decl_kind = OP_DT_IS) :
    rw.mk_app_core f [t] result =
      if (!is_app t || !rw.m_util.is_constructor t) = true then
        if (!is_app t || contains_uninterp t rw.m || !is_ground t
            || contains_partial_accessor_app t rw.m) = true then
          outcome.ret br_status.BR_FAILED result
        else rw.mk_app_core_is_compare f t
      else rw.mk_app_core_is_compare f t := by
  unfold datatype_rewriter.mk_app_core
  simp [hf, hk]

/-- `mk_app_core` at an accessor and one argument, with the switch resolved. -/
theorem datatype_rewriter.mk_app_core_accessor (rw : datatype_rewriter) (f : func_decl)
    (t : expr) (result : Option expr)
    (hf : f.family_id = rw.get_fid) (hk : f.decl_kind = OP_DT_ACCESSOR) :
    rw.mk_app_core f [t] result =
      if (!is_app t || !rw.m_util.is_constructor t) = true then
        outcome.ret br_status.BR_FAILED result
      else
        match t with
        | expr.app c_decl a_args =>
          if c_decl ≠ rw.m_util.get_accessor_constructor f then
            outcome.ret br_status.BR_FAILED result
          else
            if (rw.m_util.get_constructor_accessors c_decl).length ≠ a_args.length then
              outcome.assertion_violation
            else
              datatype_rewriter.mk_app_core_accessor_loop f a_args
                (rw.m_util.get_constructor_accessors c_decl) 0
        | _ => outcome.assertion_violation := by
  unfold datatype_rewriter.mk_app_core
  simp [hf, hk]

/-- The search loop, started at index `k` on the accessors from position `k`
on: when `f` stands at position `j` of that list and not before, the loop
returns argument `k + j`. -/
theorem datatype_rewriter.mk_app_core_accessor_loop_spec (f : func_decl)
    (a_args : List expr) :
    ∀ (acc : List func_decl) (k j : Nat) (a : expr),
      acc.get? j = some f → (∀ j', j' < j → acc.get? j' ≠ some f) →
      a_args.get? (k + j) = some a →
      datatype_rewriter.mk_app_core_accessor_loop f a_args acc k =
        outcome.ret br_status.BR_DONE (some a)
  | [], _, j, _, h, _, _ => by simp at h
  | g :: acc, k, 0, a, h, _, ha => by
    simp at h
    simp at ha
    simp [datatype_rewriter.mk_app_core_accessor_loop, h, ha]
  | g :: acc, k, j + 1, a, h, hfirst, ha => by
    have hg : ¬ f = g := by
      intro hfg
      exact hfirst 0 (Nat.succ_pos j) (by simp [hfg])
    simp only [datatype_rewriter.mk_app_core_accessor_loop, hg, if_false]
    apply datatype_rewriter.mk_app_core_accessor_loop_spec f a_args acc (k + 1) j a
    · simpa using h
    · intro j' hj'
      have := hfirst (j' + 1) (Nat.succ_lt_succ hj')
      simpa using this
    · have e : k + 1 + j = k + (j + 1) := by omega
      rw [e]
      exact ha

/-- In a list without repetition, the element at position `i` does not
stand at an earlier position. -/
theorem nodup_get?_first {α : Type} (l : List α) (x : α) (i : Nat) (hn : l.Nodup)
    (hi : l.get? i = some x) : ∀ j, j < i → l.get? j ≠ some x := by
  intro j hj hjx
  have hil : i < l.length := by
    rcases Nat.lt_or_ge i l.length with h | h
    · exact h
    · rw [List.get?_eq_none.mpr h] at hi
      cases hi
  have hjl : j < l.length := Nat.lt_trans hj hil
  rw [List.get?_eq_get hil] at hi
  rw [List.get?_eq_get hjl] at hjx
  have e : l.get ⟨j, hjl⟩ = l.get ⟨i, hil⟩ := by
    rw [Option.some.inj hi, Option.some.inj hjx]
  have := (List.Nodup.get_inj_iff hn).mp e
  have : j = i := by simpa using congrArg Fin.val this
  omega


/-- C6: for a recogniser `f` (kind `OP_DT_IS`) and an argument that is an
application of a constructor `D`, `mk_app_core` returns `BR_DONE`, with
result `true` when `D` is the constructor that `f` recognises and `false`
when `D` is another constructor. -/
theorem datatype_rewriter.mk_app_core_is_of_constructor (rw : datatype_rewriter)
    (f D : func_decl) (d_args : List expr) (result : Option expr)
    (hf : f.family_id = rw.get_fid) (hk : f.decl_kind = OP_DT_IS)
    (hD : rw.m_util.is_constructor (expr.app D d_args) = true) :
    (D = rw.m_util.get_recognizer_constructor f →
      rw.mk_app_core f [expr.app D d_args] result =
        outcome.ret br_status.BR_DONE (some rw.m.mk_true)) ∧
    (D ≠ rw.m_util.get_recognizer_constructor f →
      rw.mk_app_core f [expr.app D d_args] result =
        outcome.ret br_status.BR_DONE (some rw.m.mk_false)) := by
  have e : rw.mk_app_core f [expr.app D d_args] result =
      rw.mk_app_core_is_compare f (expr.app D d_args) := by
    rw [datatype_rewriter.mk_app_core_is rw f _ result hf hk]
    simp [hD, is_app]
  rw [e]
  constructor
  · intro h
    simp [datatype_rewriter.mk_app_core_is_compare, h]
  · intro h
    simp [datatype_rewriter.mk_app_core_is_compare, h]

/-- C6 at `is_insert(insert(x, y))`, rewritten to `true`, and at
`is_insert(nil)`, rewritten to `false`. -/
theorem datatype_rewriter.mk_app_core_is_of_constructor_witness :
    example_dt.rw.mk_app_core example_dt.is_insert_decl
        [example_dt.insert example_dt.x example_dt.y] none =
      outcome.ret br_status.BR_DONE (some example_dt.m.mk_true) ∧
    example_dt.rw.mk_app_core example_dt.is_insert_decl [example_dt.nil] none =
      outcome.ret br_status.BR_DONE (some example_dt.m.mk_false) :=
  ⟨(datatype_rewriter.mk_app_core_is_of_constructor example_dt.rw
      example_dt.is_insert_decl example_dt.insert_decl [example_dt.x, example_dt.y] none
      rfl rfl rfl).1 (by decide),
   (datatype_rewriter.mk_app_core_is_of_constructor example_dt.rw
      example_dt.is_insert_decl example_dt.nil_decl [] none
      rfl rfl rfl).2 (by decide)⟩

/-- C7: for an accessor `f` (kind `OP_DT_ACCESSOR`): on an application
`C(a_0, ..., a_{n-1})` of its constructor `C`, whose accessors are `n`
distinct declarations with `f` the `i`-th of them, `mk_app_core` returns
`BR_DONE` with result `a_i`, so it does not reach the `UNREACHABLE()` after
the loop; on an argument that is not a constructor application, and on an
application of a constructor other than the constructor of `f`, it returns
`BR_FAILED` and leaves `result` as it was. -/
theorem datatype_rewriter.mk_app_core_accessor_spec (rw : datatype_rewriter)
    (f : func_decl) (result : Option expr)
    (hf : f.family_id = rw.get_fid) (hk : f.decl_kind = OP_DT_ACCESSOR) :
    (∀ (C : func_decl) (a_args : List expr) (i : Nat) (a_i : expr),
      rw.m_util.is_constructor (expr.app C a_args) = true →
      rw.m_util.get_accessor_constructor f = C →
      (rw.m_util.get_constructor_accessors C).Nodup →
      (rw.m_util.get_constructor_accessors C).length = a_args.length →
      (rw.m_util.get_constructor_accessors C).get? i = some f →
      a_args.get? i = some a_i →
      rw.mk_app_core f [expr.app C a_args] result =
        outcome.ret br_status.BR_DONE (some a_i)) ∧
    (∀ t : expr, rw.m_util.is_constructor t = false →
      rw.mk_app_core f [t] result = outcome.ret br_status.BR_FAILED result) ∧
    (∀ (D : func_decl) (d_args : List expr),
      rw.m_util.is_constructor (expr.app D d_args) = true →
      D ≠ rw.m_util.get_accessor_constructor f →
      rw.mk_app_core f [expr.app D d_args] result =
        outcome.ret br_status.BR_FAILED result) := by
  refine ⟨?_, ?_, ?_⟩
  · intro C a_args i a_i hC hfC hnd hlen hi ha
    rw [datatype_rewriter.mk_app_core_accessor rw f _ result hf hk]
    simp only [hC, is_app, hfC, hlen]
    simp only [Bool.not_true, Bool.or_self, Bool.false_eq_true, if_false, ne_eq,
      not_true_eq_false]
    apply datatype_rewriter.mk_app_core_accessor_loop_spec f a_args _ 0 i a_i hi
    · exact nodup_get?_first _ f i hnd hi
    · simpa using ha
  · intro t ht
    rw [datatype_rewriter.mk_app_core_accessor rw f _ result hf hk]
    simp [ht]
  · intro D d_args hD hne
    rw [datatype_rewriter.mk_app_core_accessor rw f _ result hf hk]
    simp [hD, is_app, hne]

/-- C7 at `head(insert(x, y))`, rewritten to `x`, at `tail(insert(x, y))`,
rewritten to `y`, at `head(x)` and at `head(nil)`, both not rewritten. -/
theorem datatype_rewriter.mk_app_core_accessor_spec_witness :
    example_dt.rw.mk_app_core example_dt.head_decl
        [example_dt.insert example_dt.x example_dt.y] none =
      outcome.ret br_status.BR_DONE (some example_dt.x) ∧
    example_dt.rw.mk_app_core example_dt.tail_decl
        [example_dt.insert example_dt.x example_dt.y] none =
      outcome.ret br_status.BR_DONE (some example_dt.y) ∧
    example_dt.rw.mk_app_core example_dt.head_decl [example_dt.x] none =
      outcome.ret br_status.BR_FAILED none ∧
    example_dt.rw.mk_app_core example_dt.head_decl [example_dt.nil] none =
      outcome.ret br_status.BR_FAILED none :=
  ⟨(datatype_rewriter.mk_app_core_accessor_spec example_dt.rw example_dt.head_decl none
      rfl rfl).1 example_dt.insert_decl [example_dt.x, example_dt.y] 0 example_dt.x
      rfl rfl (by decide) rfl rfl rfl,
   (datatype_rewriter.mk_app_core_accessor_spec example_dt.rw example_dt.tail_decl none
      rfl rfl).1 example_dt.insert_decl [example_dt.x, example_dt.y] 1 example_dt.y
      rfl rfl (by decide) rfl rfl rfl,
   (datatype_rewriter.mk_app_core_accessor_spec example_dt.rw example_dt.head_decl none
      rfl rfl).2.1 example_dt.x rfl,
   (datatype_rewriter.mk_app_core_accessor_spec example_dt.rw example_dt.head_decl none
      rfl rfl).2.2 example_dt.nil_decl [] rfl (by decide)⟩

/-- The loop of `mk_eq_core` on argument lists of equal length builds the
equalities `a_i = b_i` position by position. -/
theorem datatype_rewriter.mk_eq_core_loop_eq (rw : datatype_rewriter) :
    ∀ l_args r_args : List expr,
      rw.mk_eq_core_loop l_args r_args = List.zipWith rw.m.mk_eq l_args r_args
  | [], _ => by simp [datatype_rewriter.mk_eq_core_loop]
  | _ :: _, [] => by simp [datatype_rewriter.mk_eq_core_loop]
  | a :: l_args, b :: r_args => by
    simp [datatype_rewriter.mk_eq_core_loop,
      datatype_rewriter.mk_eq_core_loop_eq rw l_args r_args]

/-- C8: for constructor applications `lhs = C(a_0..a_{n-1})` and
`rhs = D(b_0..b_{m-1})`: when `C != D`, `mk_eq_core` returns `BR_DONE` with
result `false`; when `C = D` (and so `m = n`) it returns `BR_REWRITE2` with
result the conjunction `mk_and` of the `n` equalities `mk_eq(a_i, b_i)`,
`i = 0, ..., n-1`, in argument order; when one of the two sides is not a
constructor application it returns `BR_FAILED` and leaves `result` as it
was. -/
theorem datatype_rewriter.mk_eq_core_spec (rw : datatype_rewriter) (result : Option expr) :
    (∀ (C D : func_decl) (a_args b_args : List expr),
      rw.m_util.is_constructor (expr.app C a_args) = true →
      rw.m_util.is_constructor (expr.app D b_args) = true →
      C ≠ D →
      rw.mk_eq_core (expr.app C a_args) (expr.app D b_args) result =
        outcome.ret br_status.BR_DONE (some rw.m.mk_false)) ∧
    (∀ (C : func_decl) (a_args b_args : List expr),
      rw.m_util.is_constructor (expr.app C a_args) = true →
      a_args.length = b_args.length →
      rw.mk_eq_core (expr.app C a_args) (expr.app C b_args) result =
        outcome.ret br_status.BR_REWRITE2
          (some (rw.m.mk_and (List.zipWith rw.m.mk_eq a_args b_args))) ∧
      (List.zipWith rw.m.mk_eq a_args b_args).length = a_args.length ∧
      ∀ (i : Nat) (a_i b_i : expr), a_args.get? i = some a_i → b_args.get? i = some b_i →
        (List.zipWith rw.m.mk_eq a_args b_args).get? i = some (rw.m.mk_eq a_i b_i)) ∧
    (∀ lhs rhs : expr,
      rw.m_util.is_constructor lhs = false ∨ rw.m_util.is_constructor rhs = false →
      rw.mk_eq_core lhs rhs result = outcome.ret br_status.BR_FAILED result) := by
  refine ⟨?_, ?_, ?_⟩
  · intro C D a_args b_args hC hD hne
    unfold datatype_rewriter.mk_eq_core
    simp [hC, hD, is_app, hne]
  · intro C a_args b_args hC hlen
    have hC' : rw.m_util.is_constructor (expr.app C b_args) = true := by
      rw [datatype_util.is_constructor_app] at hC ⊢
      exact hC
    refine ⟨?_, ?_, ?_⟩
    · unfold datatype_rewriter.mk_eq_core
      simp [hC, hC', is_app, hlen, datatype_rewriter.mk_eq_core_loop_eq]
    · simp [hlen]
    · intro i a_i b_i ha hb
      simp [List.getElem?_zipWith, List.get?_eq_getElem?] at *
      simp [ha, hb]
  · intro lhs rhs h
    unfold datatype_rewriter.mk_eq_core
    rcases h with h | h
    · simp [h]
    · simp [h]

/-- C8 at `insert(x, nil) = nil`, rewritten to `false`, at
`insert(x, nil) = insert(y, nil)`, rewritten to `and(x = y, nil = nil)`, and
at `x = nil`, not rewritten. -/
theorem datatype_rewriter.mk_eq_core_spec_witness :
    example_dt.rw.mk_eq_core (example_dt.insert example_dt.x example_dt.nil)
        example_dt.nil none =
      outcome.ret br_status.BR_DONE (some example_dt.m.mk_false) ∧
    example_dt.rw.mk_eq_core (example_dt.insert example_dt.x example_dt.nil)
        (example_dt.insert example_dt.y example_dt.nil) none =
      outcome.ret br_status.BR_REWRITE2
        (some (example_dt.m.mk_and
          [example_dt.m.mk_eq example_dt.x example_dt.y,
           example_dt.m.mk_eq example_dt.nil example_dt.nil])) ∧
    example_dt.rw.mk_eq_core example_dt.x example_dt.nil none =
      outcome.ret br_status.BR_FAILED none :=
  ⟨(datatype_rewriter.mk_eq_core_spec example_dt.rw none).1
      example_dt.insert_decl example_dt.nil_decl [example_dt.x, example_dt.nil] []
      rfl rfl (by decide),
   ((datatype_rewriter.mk_eq_core_spec example_dt.rw none).2.1
      example_dt.insert_decl [example_dt.x, example_dt.nil] [example_dt.y, example_dt.nil]
      rfl rfl).1,
   (datatype_rewriter.mk_eq_core_spec example_dt.rw none).2.2
      example_dt.x example_dt.nil (Or.inl rfl)⟩

/-- The visitor of `contains_uninterp` throws at `s` exactly when `s` is an
application of an uninterpreted symbol. -/
theorem threw_contains_uninterp_call (m : ast_manager) (s : expr) :
    threw ((contains_uninterp_proc_ns.contains_uninterp_proc.ctor m).call s) =
      spec_uninterp_app m s := by
  unfold contains_uninterp_proc_ns.contains_uninterp_proc.call
    contains_uninterp_proc_ns.contains_uninterp_proc.ctor spec_uninterp_app
  cases s with
  | var i => rfl
  | quantifier b ps nps => rfl
  | app d args =>
    by_cases h : m.is_considered_uninterpreted d = true
    · simp [h, threw, throw, throwThe, MonadExceptOf.throw]
    · simp [h, threw, pure, Except.pure]

/-- The function `contains_uninterp` finds an uninterpreted symbol at every
depth: its answer is "some subterm is an application of an uninterpreted
symbol". -/
theorem contains_uninterp_eq_any (c : expr) (m : ast_manager) :
    contains_uninterp c m = (subterms c).any (spec_uninterp_app m) := by
  have e : contains_uninterp c m =
      threw (for_each_expr
        (contains_uninterp_proc_ns.contains_uninterp_proc.ctor m).call c) := by
    unfold contains_uninterp threw
    dsimp only
    cases for_each_expr
      (contains_uninterp_proc_ns.contains_uninterp_proc.ctor m).call c <;> rfl
  rw [e, threw_for_each_expr]
  congr 1
  funext s
  exact threw_contains_uninterp_call m s

mutual
/-- A term is ground exactly when every subterm of it is an application. -/
theorem is_ground_eq_all : ∀ e : expr, is_ground e = (subterms e).all is_app
  | expr.var i => by simp [is_ground, subterms, is_app]
  | expr.app d args => by
    simp only [is_ground, subterms, List.all_cons, is_app, Bool.true_and,
      is_ground_args_eq_all args]
  | expr.quantifier b ps nps => by simp [is_ground, subterms, is_app]
theorem is_ground_args_eq_all :
    ∀ es : List expr, is_ground_args es = (subterms_children es).all is_app
  | [] => by simp [is_ground_args, subterms_children]
  | e :: es => by
    simp only [is_ground_args, subterms_children, List.all_append,
      is_ground_eq_all e, is_ground_args_eq_all es]
end

/-- The three detectors of line 88 against the conditions in the words of the
specification: `contains_uninterp` answers `true` exactly when the term
contains an uninterpreted symbol, `is_ground` answers `false` exactly when
the term is not ground, and `contains_partial_accessor_app` answers `true`
exactly when the term contains a partial accessor application. -/
theorem detectors_iff_spec (t : expr) (m : ast_manager) :
    (contains_uninterp t m = true ↔ spec_contains_uninterp t m) ∧
    (is_ground t = false ↔ spec_not_ground t) ∧
    (contains_partial_accessor_app t m = true ↔ spec_contains_partial_accessor t m) := by
  refine ⟨?_, ?_, ?_⟩
  · rw [contains_uninterp_eq_any, List.any_eq_true]
    rfl
  · rw [is_ground_eq_all, ← Bool.not_eq_true, List.all_eq_true]
    unfold spec_not_ground
    constructor
    · intro h
      by_contra hc
      apply h
      intro s hs
      by_contra hs'
      exact hc ⟨s, hs, by simpa using hs'⟩
    · rintro ⟨s, hs, hs'⟩ h
      have := h s hs
      rw [hs'] at this
      cases this
  · rw [contains_partial_accessor_app_eq_any, List.any_eq_true]
    rfl

/-- C9: for a recogniser `f` (kind `OP_DT_IS`) and an argument `t` that is
not a constructor application, `mk_app_core` returns `BR_FAILED` and leaves
`result` as it was whenever `t` is not an application, or some subterm of
`t` (at the root or below it) is an application of an uninterpreted symbol,
or some subterm of `t` is a variable or a quantifier (`t` is not ground), or
some subterm of `t` is a partial accessor application. In particular this
holds for `t = acc(c(..))` with `acc` an accessor whose constructor is not
`c`, such as `tail(nil)`: neither `is_nil(tail(nil))` nor
`is_insert(tail(nil))` is rewritten. -/
theorem datatype_rewriter.mk_app_core_is_failed (rw : datatype_rewriter)
    (f : func_decl) (result : Option expr)
    (hf : f.family_id = rw.get_fid) (hk : f.decl_kind = OP_DT_IS) :
    (∀ t : expr, rw.m_util.is_constructor t = false →
      (is_app t = false ∨ spec_contains_uninterp t rw.m ∨ spec_not_ground t ∨
        spec_contains_partial_accessor t rw.m) →
      rw.mk_app_core f [t] result = outcome.ret br_status.BR_FAILED result) ∧
    (∀ (acc c : func_decl) (c_args : List expr),
      acc.family_id = rw.get_fid → acc.decl_kind = OP_DT_ACCESSOR →
      c ≠ rw.m_util.get_accessor_constructor acc →
      rw.mk_app_core f [expr.app acc [expr.app c c_args]] result =
        outcome.ret br_status.BR_FAILED result) := by
  have general : ∀ t : expr, rw.m_util.is_constructor t = false →
      (is_app t = false ∨ spec_contains_uninterp t rw.m ∨ spec_not_ground t ∨
        spec_contains_partial_accessor t rw.m) →
      rw.mk_app_core f [t] result = outcome.ret br_status.BR_FAILED result := by
    intro t ht h
    obtain ⟨hu, hg, hp⟩ := detectors_iff_spec t rw.m
    rw [datatype_rewriter.mk_app_core_is rw f t result hf hk]
    rcases h with h | h | h | h
    · simp [ht, h]
    · simp [ht, hu.mpr h]
    · simp [ht, hg.mpr h]
    · simp [ht, hp.mpr h]
  refine ⟨general, ?_⟩
  intro acc c c_args hacc hkind hne
  apply general
  · simp [datatype_util.is_constructor, is_app_of, hkind]
  · right; right; right
    refine ⟨expr.app acc [expr.app c c_args], ?_, ?_⟩
    · simp [subterms]
    · have h1 : acc.family_id = rw.m.datatypes.get_family_id := hacc
      have h2 : ¬ c = rw.m.datatypes.get_accessor_constructor acc := hne
      simp [spec_partial_accessor_app, h1, hkind, h2]

/-- C9 at `is_nil(tail(nil))` and `is_insert(tail(nil))`; at
`is_zero(pred(succ(x)))`, where the uninterpreted `x` stands two levels below
the root; at `is_nil(tail(v))` with `v` a variable below the root; at
`is_nil(v)`, not an application; and at `is_nil(tail(insert(x, tail(nil))))`,
where the partial accessor application `tail(nil)` stands below the root and
the root is not one: none is rewritten. -/
theorem datatype_rewriter.mk_app_core_is_failed_witness :
    example_dt.rw.mk_app_core example_dt.is_nil_decl
        [example_dt.tail example_dt.nil] none =
      outcome.ret br_status.BR_FAILED none ∧
    example_dt.rw.mk_app_core example_dt.is_insert_decl
        [example_dt.tail example_dt.nil] none =
      outcome.ret br_status.BR_FAILED none ∧
    example_dt.rw.mk_app_core example_dt.is_zero_decl
        [example_dt.pred (example_dt.succ example_dt.x)] none =
      outcome.ret br_status.BR_FAILED none ∧
    example_dt.rw.mk_app_core example_dt.is_nil_decl
        [example_dt.tail (expr.var 0)] none =
      outcome.ret br_status.BR_FAILED none ∧
    example_dt.rw.mk_app_core example_dt.is_nil_decl [expr.var 0] none =
      outcome.ret br_status.BR_FAILED none ∧
    example_dt.rw.mk_app_core example_dt.is_nil_decl
        [example_dt.tail (example_dt.insert example_dt.zero
          (example_dt.tail example_dt.nil))] none =
      outcome.ret br_status.BR_FAILED none :=
  ⟨(datatype_rewriter.mk_app_core_is_failed example_dt.rw example_dt.is_nil_decl none
      rfl rfl).2 example_dt.tail_decl example_dt.nil_decl [] rfl rfl (by decide),
   (datatype_rewriter.mk_app_core_is_failed example_dt.rw example_dt.is_insert_decl none
      rfl rfl).2 example_dt.tail_decl example_dt.nil_decl [] rfl rfl (by decide),
   (datatype_rewriter.mk_app_core_is_failed example_dt.rw example_dt.is_zero_decl none
      rfl rfl).1 (example_dt.pred (example_dt.succ example_dt.x)) rfl
      (Or.inr (Or.inl ⟨example_dt.x,
        List.Mem.tail _ (List.Mem.tail _ (List.Mem.head _)), rfl⟩)),
   (datatype_rewriter.mk_app_core_is_failed example_dt.rw example_dt.is_nil_decl none
      rfl rfl).1 (example_dt.tail (expr.var 0)) rfl
      (Or.inr (Or.inr (Or.inl ⟨expr.var 0,
        List.Mem.tail _ (List.Mem.head _), rfl⟩))),
   (datatype_rewriter.mk_app_core_is_failed example_dt.rw example_dt.is_nil_decl none
      rfl rfl).1 (expr.var 0) rfl (Or.inl rfl),
   (datatype_rewriter.mk_app_core_is_failed example_dt.rw example_dt.is_nil_decl none
      rfl rfl).1
      (example_dt.tail (example_dt.insert example_dt.zero
        (example_dt.tail example_dt.nil))) rfl
      (Or.inr (Or.inr (Or.inr ⟨example_dt.tail example_dt.nil,
        List.Mem.tail _ (List.Mem.tail _ (List.Mem.tail _ (List.Mem.head _))), rfl⟩)))⟩

end z3

namespace z3

/-! ## `mk_app_core` on recognisers and the datatype semantics -/

/-- The value of a constructor application is built by its constructor. -/
theorem spec_value_of_constructor (u : datatype_util) (D : func_decl)
    (d_args : List expr) (v : expr)
    (hD : u.is_constructor (expr.app D d_args) = true)
    (hv : spec_value u (expr.app D d_args) = some v) :
    ∃ vs, v = expr.app D vs := by
  rw [datatype_util.is_constructor_app] at hD
  rw [spec_value] at hv
  cases hargs : spec_value_args u d_args with
  | none => simp [hargs] at hv
  | some vs =>
    simp only [hargs, hD, and_self, if_true] at hv
    exact ⟨vs, (Option.some.inj hv).symm⟩

/-- On a constructor application that has a value, the rewriting of `is_C`
is meaning-preserving: the result is `true` exactly when the value is built
by the constructor that the recogniser recognises. -/
theorem datatype_rewriter.mk_app_core_is_of_constructor_value (rw : datatype_rewriter)
    (f D : func_decl) (d_args : List expr) (result : Option expr) (v : expr)
    (hf : f.family_id = rw.get_fid) (hk : f.decl_kind = OP_DT_IS)
    (hD : rw.m_util.is_constructor (expr.app D d_args) = true)
    (hv : spec_value rw.m_util (expr.app D d_args) = some v)
    (hne : rw.m.mk_false ≠ rw.m.mk_true) :
    ∃ r, rw.mk_app_core f [expr.app D d_args] result =
        outcome.ret br_status.BR_DONE (some r) ∧
      (r = rw.m.mk_true ↔
        spec_built_by (rw.m_util.get_recognizer_constructor f) v = true) := by
  obtain ⟨vs, rfl⟩ := spec_value_of_constructor rw.m_util D d_args v hD hv
  have e : rw.mk_app_core f [expr.app D d_args] result =
      rw.mk_app_core_is_compare f (expr.app D d_args) := by
    rw [datatype_rewriter.mk_app_core_is rw f _ result hf hk]
    simp [hD, is_app]
  rw [e]
  by_cases h : D = rw.m_util.get_recognizer_constructor f
  · refine ⟨rw.m.mk_true, ?_, ?_⟩
    · simp [datatype_rewriter.mk_app_core_is_compare, h]
    · simp [spec_built_by, h]
  · refine ⟨rw.m.mk_false, ?_, ?_⟩
    · simp [datatype_rewriter.mk_app_core_is_compare, h]
    · simp [spec_built_by, h, hne]

/-- C11, at `is_zero(pred(succ(zero)))`: the argument `pred(succ(zero))` is a
ground application that is not a constructor application, has no
uninterpreted symbol and no partial accessor application; `mk_app_core`
returns `BR_DONE` with result `false`, which is not the term `true`; the
value of `pred(succ(zero))` under the datatype semantics is `zero`, which is
built by the constructor `zero` that `is_zero` recognises. -/
theorem datatype_rewriter.mk_app_core_is_zero_pred_succ_zero :
    is_ground (example_dt.pred (example_dt.succ example_dt.zero)) = true ∧
    example_dt.rw.m_util.is_constructor
      (example_dt.pred (example_dt.succ example_dt.zero)) = false ∧
    contains_uninterp (example_dt.pred (example_dt.succ example_dt.zero))
      example_dt.m = false ∧
    contains_partial_accessor_app (example_dt.pred (example_dt.succ example_dt.zero))
      example_dt.m = false ∧
    example_dt.rw.mk_app_core example_dt.is_zero_decl
        [example_dt.pred (example_dt.succ example_dt.zero)] none =
      outcome.ret br_status.BR_DONE (some example_dt.m.mk_false) ∧
    example_dt.m.mk_false ≠ example_dt.m.mk_true ∧
    spec_value example_dt.rw.m_util (example_dt.pred (example_dt.succ example_dt.zero)) =
      some example_dt.zero ∧
    spec_built_by (example_dt.rw.m_util.get_recognizer_constructor example_dt.is_zero_decl)
      example_dt.zero = true := by
  refine ⟨rfl, rfl, rfl, rfl, rfl, ?_, rfl, rfl⟩
  simp [example_dt.m]

end z3
